import Mathlib

/-!
Verification development for the snapshot synchronization engine of
`sync-repos.py` (wasix-org/wasmopticon).

The Python program is shallowly embedded as pure Lean functions:

* Strings are Lean `String`s; Python `str.strip`, `str.lower`, regex
  substitutions and the `[0-9a-fA-F]{40}` full-match are embedded as
  executable character-list functions.
* Each external `git` invocation (`run_git`) either returns a
  `(returncode, stdout, stderr)` triple or raises `TimeoutExpired`; an
  invocation's outcome is a `GitCall` value supplied by the environment.
* Python exceptions are the inductive `PyExn` (`RuntimeError`,
  `subprocess.TimeoutExpired`, `OSError`), and fallible functions return
  `Except PyExn _`.
* Filesystem effects of `process_repo` (base-directory creation, temporary
  checkout creation/removal, archive writes) are recorded explicitly in the
  returned `ProcResult`, with the pre-existing filesystem content (marker
  files, sibling directories) supplied in a `World` record.
-/

/-! ## Python string primitives -/

/-- Whitespace characters stripped by Python `str.strip()`. -/
def isPySpace (c : Char) : Bool :=
  c = ' ' || c = '\t' || c = '\n' || c = '\r' || c = '\x0b' || c = '\x0c'

/-- Remove leading and trailing characters satisfying `p`
(the semantics of Python `str.strip(chars)`). -/
def stripChars (p : Char → Bool) (l : List Char) : List Char :=
  ((l.dropWhile p).reverse.dropWhile p).reverse

/-- Python `s.strip()`. -/
def pyStrip (s : String) : String := String.mk (stripChars isPySpace s.data)

/-- Python `s.lower()` (ASCII case fold suffices for the hex digits and
paths handled by the program). -/
def pyLower (s : String) : String := String.mk (s.data.map Char.toLower)

/-- Characters of the class `[A-Za-z0-9._-]` from `sanitize_for_path`. -/
def allowedChar (c : Char) : Bool :=
  c.isAlpha || c.isDigit || c = '.' || c = '_' || c = '-'

/-- Characters stripped by the trailing `value.strip("._-")` in
`sanitize_for_path`. -/
def isSepChar (c : Char) : Bool := c = '.' || c = '_' || c = '-'

/-- Embedding of `re.sub(r"[^A-Za-z0-9._-]+", "_", value)`: every maximal
run of disallowed characters becomes a single underscore. -/
def subRuns : List Char → List Char
  | [] => []
  | [c] => [if allowedChar c then c else '_']
  | c1 :: c2 :: rest =>
    if allowedChar c1 = false ∧ allowedChar c2 = false then subRuns (c2 :: rest)
    else (if allowedChar c1 then c1 else '_') :: subRuns (c2 :: rest)

/-- Embedding of `re.sub(r"_+", "_", value)`: collapse runs of
underscores to a single underscore. -/
def collapseUS : List Char → List Char
  | [] => []
  | [c] => [c]
  | c1 :: c2 :: rest =>
    if c1 = '_' ∧ c2 = '_' then collapseUS (c2 :: rest)
    else c1 :: collapseUS (c2 :: rest)

/-- The pipeline of `sanitize_for_path` before the `or "item"` fallback:
`value.strip()`, the two regex substitutions, then `value.strip("._-")`. -/
def sanitizeCore (l : List Char) : List Char :=
  stripChars isSepChar (collapseUS (subRuns (stripChars isPySpace l)))

/-- Embedding of `sanitize_for_path` (src/sync-repos.py lines 79-87); the
trailing `or "item"` returns the placeholder when the stripped result is
empty (falsy). -/
def sanitize_for_path (s : String) : String :=
  if (sanitizeCore s.data).isEmpty then "item" else String.mk (sanitizeCore s.data)

/-- Hexadecimal digit, as matched by the character class `[0-9a-fA-F]`. -/
def isHexChar (c : Char) : Bool :=
  c.isDigit || ('a' ≤ c && c ≤ 'f') || ('A' ≤ c && c ≤ 'F')

/-- Embedding of `re.fullmatch(r"[0-9a-fA-F]{40}", txt)`. -/
def isHex40 (s : String) : Bool :=
  s.data.length = 40 && s.data.all isHexChar

/-! ## Marker scan (`existing_commit_hashes_for_repo`) -/

/-- Result of attempting to read one marker file during the `rglob` scan:
either its text content, or an exception while reading (the `except`
branch of the loop). -/
inductive MarkerRead where
  | content (txt : String)
  | unreadable
deriving DecidableEq, Repr

/-- Embedding of `existing_commit_hashes_for_repo` (lines 195-207):
collects `txt.strip()` lowercased for each readable marker whose stripped
content full-matches `[0-9a-fA-F]{40}`; unreadable markers are skipped by
the `except: continue`. The function is total: no input raises. -/
def existing_commit_hashes_for_repo (baseExists : Bool) (markers : List MarkerRead) :
    List String :=
  if baseExists then
    markers.filterMap (fun m =>
      match m with
      | .unreadable => none
      | .content t =>
        let txt := pyStrip t
        if isHex40 txt then some (pyLower txt) else none)
  else []

/-! ## Git invocations and Python exceptions -/

/-- The `(returncode, stdout, stderr)` triple returned by `run_git`. -/
structure GitRun where
  returncode : Int
  stdout : String
  stderr : String
deriving DecidableEq, Repr

/-- Outcome of one `subprocess.run` of git: either it completes with a
triple (`check=False`, so a nonzero return code does not raise), or the
`timeout` elapses and `subprocess.TimeoutExpired` is raised. -/
inductive GitCall where
  | done (r : GitRun)
  | timedOut (cmd : String) (secs : Nat)
deriving DecidableEq, Repr

/-- Python exceptions that flow through the program: `RuntimeError`
raised by the gateway helpers, `subprocess.TimeoutExpired` escaping
`run_git`, and `OSError` from filesystem operations during export. -/
inductive PyExn where
  | runtimeError (msg : String)
  | timeoutExpired (cmd : String) (secs : Nat)
  | osError (msg : String)
deriving DecidableEq, Repr

/-- Embedding of `run_git` (lines 96-111): returns the triple, or raises
`TimeoutExpired` when the call timed out. -/
def runGitStep : GitCall → Except PyExn GitRun
  | .done r => .ok r
  | .timedOut cmd secs => .error (.timeoutExpired cmd secs)

/-- Python `str(e)` for each modelled exception (the text `process_repo`
hands to its caller; `TimeoutExpired` renders the command and the elapsed
seconds, distinguishable from any git stderr text carried by a
`RuntimeError`). -/
def pyStr : PyExn → String
  | .runtimeError m => m
  | .timeoutExpired cmd secs =>
      "Command " ++ cmd ++ " timed out after " ++ toString secs ++ " seconds"
  | .osError m => m

/-! ## `clone_at_ref_shallow` -/

/-- Outcomes of the git invocations made inside `clone_at_ref_shallow`:
`git init`, `git remote add`, the shallow fetch, the full-fetch fallback,
and `git checkout --detach FETCH_HEAD`. -/
structure CloneEnv where
  initRes : GitCall
  remoteAddRes : GitCall
  shallowFetchRes : GitCall
  fullFetchRes : GitCall
  checkoutRes : GitCall
deriving DecidableEq, Repr

/-- Which fetch invocations `clone_at_ref_shallow` actually issued, in
order. -/
inductive FetchKind where
  | shallow
  | full
deriving DecidableEq, Repr

/-- The checkout step at the end of `clone_at_ref_shallow`
(lines 150-153). -/
def checkoutStage (env : CloneEnv) : Except PyExn Unit :=
  match runGitStep env.checkoutRes with
  | .error e => .error e
  | .ok r =>
    if r.returncode ≠ 0 then
      .error (.runtimeError ("git checkout failed: " ++ pyStrip r.stderr))
    else .ok ()

/-- Embedding of `clone_at_ref_shallow` (lines 114-157), returning the
list of fetch attempts issued together with the result (`.error e` means
the Python function raised `e`). -/
def clone_at_ref_shallow (env : CloneEnv) : List FetchKind × Except PyExn Unit :=
  match runGitStep env.initRes with
  | .error e => ([], .error e)
  | .ok r0 =>
    if r0.returncode ≠ 0 then
      ([], .error (.runtimeError ("git init failed: " ++ pyStrip r0.stderr)))
    else
      match runGitStep env.remoteAddRes with
      | .error e => ([], .error e)
      | .ok r1 =>
        if r1.returncode ≠ 0 then
          ([], .error (.runtimeError ("git remote add failed: " ++ pyStrip r1.stderr)))
        else
          match runGitStep env.shallowFetchRes with
          | .error e => ([.shallow], .error e)
          | .ok rs =>
            if rs.returncode ≠ 0 then
              match runGitStep env.fullFetchRes with
              | .error e => ([.shallow, .full], .error e)
              | .ok rf =>
                if rf.returncode ≠ 0 then
                  ([.shallow, .full],
                   .error (.runtimeError ("git fetch ref failed: " ++ pyStrip rf.stderr)))
                else ([.shallow, .full], checkoutStage env)
            else ([.shallow], checkoutStage env)

/-- Embedding of `git_rev_parse_head` (lines 160-164): `out.strip()` on
success. -/
def git_rev_parse_head (c : GitCall) : Except PyExn String :=
  match runGitStep c with
  | .error e => .error e
  | .ok r =>
    if r.returncode ≠ 0 then
      .error (.runtimeError ("git rev-parse HEAD failed: " ++ pyStrip r.stderr))
    else .ok (pyStrip r.stdout)

/-! ## Export and marker write -/

/-- Split a character list at every NUL character (the semantics of
Python `out.split("\x00")`, which keeps empty pieces). -/
def splitOnNul : List Char → List (List Char)
  | [] => [[]]
  | c :: rest =>
    if c = '\x00' then [] :: splitOnNul rest
    else
      match splitOnNul rest with
      | [] => [[c]]
      | h :: t => (c :: h) :: t

/-- Embedding of `export_tracked_files` (lines 167-183). `copyRes` is the
outcome of the `shutil.copy2` loop: `.error m` models an `OSError` raised
while copying (leaving a partial export behind). On success it returns
the tracked-file list `[p for p in out.split("\x00") if p]`. -/
def export_tracked_files (lsRes : GitCall) (copyRes : Except String Unit) :
    Except PyExn (List String) :=
  match runGitStep lsRes with
  | .error e => .error e
  | .ok r =>
    if r.returncode ≠ 0 then
      .error (.runtimeError ("git ls-files failed: " ++ pyStrip r.stderr))
    else
      match copyRes with
      | .error m => .error (.osError m)
      | .ok _ => .ok (((splitOnNul r.stdout.data).map String.mk).filter (fun p => p ≠ ""))

/-- One write to the archive (everything under the repository's base
directory other than the temporary checkout). -/
inductive ArchiveWrite where
  | exportDir (commitHash : String) (files : List String)
  | exportPartial (commitHash : String)
  | markerFile (commitHash : String) (writeSucceeded : Bool)
deriving DecidableEq, Repr

/-- Embedding of `write_marker_with_hash` (lines 186-193). The Python
body wraps `write_text` in `try/except` and only logs on failure, so the
function is total — it never raises; it is recorded as an (attempted)
archive write carrying whether the write succeeded. -/
def write_marker_with_hash (commitHash : String) (writeOk : Bool) : ArchiveWrite :=
  ArchiveWrite.markerFile commitHash writeOk

/-! ## `process_repo` -/

/-- Descriptor record (`RepoSpec` dataclass, lines 46-67). -/
structure RepoSpec where
  name : String
  giturl : String
  store_path : String
  git_ref : String
  description : String
deriving DecidableEq, Repr

deriving instance DecidableEq for Except

/-- Environment for one `process_repo` call: whether the base archive
directory already existed before `base_dir.mkdir`, the marker files the
`rglob` scan finds under it, the names of directories already present
under it (deciding `target_dir.exists()`), the outcomes of every git
invocation, the outcome of the copy loop of the export, whether the
marker `write_text` succeeds, and whether `shutil.rmtree` of the
temporary directory succeeds when attempted. -/
structure World where
  baseExisted : Bool
  markers : List MarkerRead
  dirs : List String
  clone : CloneEnv
  revParseRes : GitCall
  lsFilesRes : GitCall
  copyRes : Except String Unit
  markerWriteOk : Bool
  rmtreeOk : Bool
deriving DecidableEq, Repr

/-- Observable outcome of `process_repo`: the returned
`(ok, err)` pair, the exception caught by the outer handler (if any),
whether the return came from one of the two skip sites, and the
filesystem effects (base-directory creation, temporary-directory
creation/removal, writes to the archive, whether any fetch was issued). -/
structure ProcResult where
  ok : Bool
  err : Option String
  caught : Option PyExn
  skipped : Bool
  basePath : Option (String × String)
  createdBase : Bool
  tempCreated : Bool
  tempRemoved : Bool
  archiveWrites : List ArchiveWrite
  networkUsed : Bool
deriving DecidableEq, Repr

/-- The error text of the validation failure (lines 239-242). -/
def missingFieldsMsg : String :=
  "missing required fields (name, giturl, store_path, git_ref)"

/-- Embedding of `process_repo` (lines 235-301). The control flow follows
the source line by line: validate, compute sanitized paths, `mkdir` the
base directory, scan markers, make the temporary directory, then inside
`try`: clone, resolve, the two skip checks, export, marker write; the
`except` branch catches any raised exception, best-effort removes the
temporary directory and returns `(False, str(e))`. On the
successful-export path the source returns without removing the temporary
directory, which the model records as `tempRemoved := false`. -/
def process_repo (spec : RepoSpec) (w : World) : ProcResult :=
  if spec.giturl = "" ∨ spec.git_ref = "" ∨ spec.name = "" ∨ spec.store_path = "" then
    { ok := false, err := some missingFieldsMsg, caught := none, skipped := false,
      basePath := none, createdBase := false, tempCreated := false,
      tempRemoved := false, archiveWrites := [], networkUsed := false }
  else
    let safe_category := sanitize_for_path spec.store_path
    let safe_name := sanitize_for_path spec.name
    let createdBase := !w.baseExisted
    let existing := existing_commit_hashes_for_repo true w.markers
    let fetched := !(clone_at_ref_shallow w.clone).1.isEmpty
    match (clone_at_ref_shallow w.clone).2 with
    | .error e =>
      { ok := false, err := some (pyStr e), caught := some e, skipped := false,
        basePath := some (safe_category, safe_name), createdBase := createdBase,
        tempCreated := true, tempRemoved := w.rmtreeOk,
        archiveWrites := [], networkUsed := fetched }
    | .ok _ =>
      match git_rev_parse_head w.revParseRes with
      | .error e =>
        { ok := false, err := some (pyStr e), caught := some e, skipped := false,
          basePath := some (safe_category, safe_name), createdBase := createdBase,
          tempCreated := true, tempRemoved := w.rmtreeOk,
          archiveWrites := [], networkUsed := fetched }
      | .ok hashOut =>
        let commit_hash := pyLower hashOut
        if commit_hash ∈ existing then
          { ok := true, err := none, caught := none, skipped := true,
            basePath := some (safe_category, safe_name), createdBase := createdBase,
            tempCreated := true, tempRemoved := w.rmtreeOk,
            archiveWrites := [], networkUsed := fetched }
        else if commit_hash ∈ w.dirs then
          { ok := true, err := none, caught := none, skipped := true,
            basePath := some (safe_category, safe_name), createdBase := createdBase,
            tempCreated := true, tempRemoved := w.rmtreeOk,
            archiveWrites := [], networkUsed := fetched }
        else
          match export_tracked_files w.lsFilesRes w.copyRes with
          | .error e =>
            { ok := false, err := some (pyStr e), caught := some e, skipped := false,
              basePath := some (safe_category, safe_name), createdBase := createdBase,
              tempCreated := true, tempRemoved := w.rmtreeOk,
              archiveWrites := [ArchiveWrite.exportPartial commit_hash],
              networkUsed := fetched }
          | .ok files =>
            { ok := true, err := none, caught := none, skipped := false,
              basePath := some (safe_category, safe_name), createdBase := createdBase,
              tempCreated := true, tempRemoved := false,
              archiveWrites := [ArchiveWrite.exportDir commit_hash files,
                                write_marker_with_hash commit_hash w.markerWriteOk],
              networkUsed := fetched }

/-! ## Run coordinator (`main`, lines 367-389) -/

/-- Python `err or "unknown error"` on an `Optional[str]` (an empty
string is falsy too). -/
def pyOrStr (e : Option String) (d : String) : String :=
  match e with
  | none => d
  | some s => if s = "" then d else s

/-- Aggregated result of the descriptor loop of `main`. -/
structure MainReport where
  exitCode : Nat
  successes : Nat
  failures : List (RepoSpec × String)
  warnedEmpty : Bool
deriving Repr

/-- One iteration of the loop of `main`: a success bumps the counter, a
failure is appended to the failure list with `err or "unknown error"`. -/
def mainStep (run : RepoSpec → Bool × Option String)
    (acc : Nat × List (RepoSpec × String)) (spec : RepoSpec) :
    Nat × List (RepoSpec × String) :=
  if (run spec).1 then (acc.1 + 1, acc.2)
  else (acc.1, acc.2 ++ [(spec, pyOrStr (run spec).2 "unknown error")])

/-- Embedding of the part of `main` that drives the descriptor sequence
(lines 367-389): an empty sequence logs a warning and returns exit code 0
without processing anything; otherwise every descriptor is processed in
order and the exit code is 1 exactly when the failure list is
nonempty. -/
def main_specs (specs : List RepoSpec) (run : RepoSpec → Bool × Option String) :
    MainReport :=
  if specs.isEmpty then
    { exitCode := 0, successes := 0, failures := [], warnedEmpty := true }
  else
    let agg := specs.foldl (mainStep run) (0, [])
    { exitCode := if agg.2.isEmpty then 0 else 1,
      successes := agg.1, failures := agg.2, warnedEmpty := false }

/-! ## Concrete specimens used by witnesses and counterexamples -/

/-- A 40-hex commit identity used in concrete scenarios. -/
def hash40 : String := "0123456789abcdef0123456789abcdef01234567"

/-- A git invocation that completed successfully with empty output. -/
def okRun : GitRun := { returncode := 0, stdout := "", stderr := "" }

/-- A clone environment in which all five git invocations succeed. -/
def cloneOkEnv : CloneEnv :=
  { initRes := .done okRun, remoteAddRes := .done okRun,
    shallowFetchRes := .done okRun, fullFetchRes := .done okRun,
    checkoutRes := .done okRun }

/-- A well-formed descriptor. -/
def demoSpec : RepoSpec :=
  { name := "demo", giturl := "https://example.com/repo.git",
    store_path := "python", git_ref := "main", description := "x" }

/-- A descriptor with an empty `name`, rejected by validation. -/
def noNameSpec : RepoSpec :=
  { name := "", giturl := "https://example.com/repo.git",
    store_path := "python", git_ref := "main", description := "x" }

/-- World for a fresh snapshot: no captured commits, everything
succeeds. -/
def freshWorld : World :=
  { baseExisted := true, markers := [], dirs := [], clone := cloneOkEnv,
    revParseRes := .done { returncode := 0, stdout := hash40 ++ "\n", stderr := "" },
    lsFilesRes := .done { returncode := 0, stdout := "hello.txt\x00", stderr := "" },
    copyRes := .ok (), markerWriteOk := true, rmtreeOk := true }

/-- World in which the resolved commit already has a valid marker under
the base directory. -/
def capturedWorld : World :=
  { freshWorld with markers := [MarkerRead.content (hash40 ++ "\n")] }

/-- World in which the marker write fails after a successful export. -/
def noMarkerWorld : World := { freshWorld with markerWriteOk := false }

/-- World in which the shallow fetch times out. -/
def timeoutWorld : World :=
  { freshWorld with clone := { cloneOkEnv with
      shallowFetchRes := .timedOut "[git, fetch, --depth, 1, origin, main]" 600 } }

/-- A clone environment in which the shallow fetch and the full-fetch
fallback both complete with a nonzero return code. -/
def fetchFailEnv : CloneEnv :=
  { initRes := .done okRun, remoteAddRes := .done okRun,
    shallowFetchRes := .done { returncode := 1, stdout := "", stderr := "shallow not allowed" },
    fullFetchRes := .done { returncode := 1, stdout := "", stderr := "ref not found" },
    checkoutRes := .done okRun }

/-- The per-descriptor `(ok, err)` view of `process_repo` that the loop
of `main` consumes. -/
def procRun (ws : RepoSpec → World) (s : RepoSpec) : Bool × Option String :=
  ((process_repo s (ws s)).ok, (process_repo s (ws s)).err)

/-! ## Helper lemmas on character lists -/

theorem dropWhile_head_false (p : Char → Bool) :
    ∀ (l : List Char) (c : Char) (rest : List Char),
      l.dropWhile p = c :: rest → p c = false := by
  intro l
  induction l with
  | nil => intro c rest h; simp [List.dropWhile] at h
  | cons a t ih =>
    intro c rest h
    rw [List.dropWhile_cons] at h
    by_cases hp : p a = true
    · rw [if_pos hp] at h; exact ih c rest h
    · rw [if_neg hp] at h
      injection h with h1 _
      subst h1
      simpa using hp

theorem mem_of_mem_dropWhile (p : Char → Bool) (l : List Char) :
    ∀ c ∈ l.dropWhile p, c ∈ l := by
  induction l with
  | nil => intro c hc; simp at hc
  | cons a t ih =>
    intro c hc
    rw [List.dropWhile_cons] at hc
    by_cases hp : p a = true
    · rw [if_pos hp] at hc; exact List.mem_cons_of_mem a (ih c hc)
    · rwa [if_neg hp] at hc

theorem dropWhile_eq_self_of_all (p : Char → Bool) (l : List Char)
    (h : ∀ c ∈ l, p c = false) : l.dropWhile p = l := by
  cases l with
  | nil => rfl
  | cons a t =>
    rw [List.dropWhile_cons, if_neg (by simp [h a (List.mem_cons_self a t)])]

theorem stripChars_subset (p : Char → Bool) (l : List Char) :
    ∀ c ∈ stripChars p l, c ∈ l := by
  intro c hc
  unfold stripChars at hc
  rw [List.mem_reverse] at hc
  have h2 := mem_of_mem_dropWhile p (l.dropWhile p).reverse c hc
  rw [List.mem_reverse] at h2
  exact mem_of_mem_dropWhile p l c h2

theorem stripChars_eq_self_of_all (p : Char → Bool) (l : List Char)
    (h : ∀ c ∈ l, p c = false) : stripChars p l = l := by
  unfold stripChars
  rw [dropWhile_eq_self_of_all p l h,
      dropWhile_eq_self_of_all p l.reverse (fun c hc => h c (List.mem_reverse.mp hc)),
      List.reverse_reverse]

theorem stripChars_head_false (p : Char → Bool) (l : List Char) (c : Char)
    (rest : List Char) (h : stripChars p l = c :: rest) : p c = false := by
  have hsplit := List.takeWhile_append_dropWhile (p := p) (l := (l.dropWhile p).reverse)
  have hrev := congrArg List.reverse hsplit
  rw [List.reverse_append, List.reverse_reverse] at hrev
  unfold stripChars at h
  rw [h] at hrev
  refine dropWhile_head_false p l c
    (rest ++ ((l.dropWhile p).reverse.takeWhile p).reverse) ?_
  conv_lhs => rw [← hrev]
  simp

theorem stripChars_last_false (p : Char → Bool) (l : List Char) (c : Char)
    (rest : List Char) (h : (stripChars p l).reverse = c :: rest) : p c = false := by
  unfold stripChars at h
  rw [List.reverse_reverse] at h
  exact dropWhile_head_false p (l.dropWhile p).reverse c rest h

theorem stripChars_decomp (p : Char → Bool) (l : List Char) :
    ∃ t1 t2, l = t1 ++ (stripChars p l ++ t2) := by
  refine ⟨l.takeWhile p, ((l.dropWhile p).reverse.takeWhile p).reverse, ?_⟩
  have hsplit := List.takeWhile_append_dropWhile (p := p) (l := (l.dropWhile p).reverse)
  have hrev := congrArg List.reverse hsplit
  rw [List.reverse_append, List.reverse_reverse] at hrev
  unfold stripChars
  rw [hrev]
  exact (List.takeWhile_append_dropWhile (p := p) (l := l)).symm

theorem subRuns_allowed (l : List Char) : ∀ c ∈ subRuns l, allowedChar c = true := by
  induction l with
  | nil => intro c hc; simp [subRuns] at hc
  | cons a t ih =>
    cases t with
    | nil =>
      intro c hc
      simp only [subRuns, List.mem_singleton] at hc
      subst hc
      by_cases h : allowedChar a = true
      · rwa [if_pos h]
      · rw [if_neg h]; decide
    | cons c2 t2 =>
      intro c hc
      unfold subRuns at hc
      by_cases h : allowedChar a = false ∧ allowedChar c2 = false
      · rw [if_pos h] at hc; exact ih c hc
      · rw [if_neg h] at hc
        rcases List.mem_cons.mp hc with h1 | h2
        · subst h1
          by_cases ha : allowedChar a = true
          · rwa [if_pos ha]
          · rw [if_neg ha]; decide
        · exact ih c h2

theorem subRuns_of_allowed (l : List Char) (h : ∀ c ∈ l, allowedChar c = true) :
    subRuns l = l := by
  induction l with
  | nil => rfl
  | cons a t ih =>
    cases t with
    | nil =>
      have ha := h a (List.mem_cons_self a [])
      simp [subRuns, ha]
    | cons c2 t2 =>
      have ha := h a (List.mem_cons_self a (c2 :: t2))
      unfold subRuns
      rw [if_neg (by simp [ha])]
      rw [if_pos ha, ih (fun c hc => h c (List.mem_cons_of_mem a hc))]

/-- No two adjacent underscores (the invariant established by the second
regex substitution). -/
def noDUS : List Char → Bool
  | [] => true
  | [_] => true
  | c1 :: c2 :: rest => !(c1 = '_' && c2 = '_') && noDUS (c2 :: rest)

theorem bool_of_not_both_us (c c2 : Char) (h : ¬(c = '_' ∧ c2 = '_')) :
    (!(c = '_' && c2 = '_')) = true := by
  by_cases hc : c = '_'
  · by_cases hc2 : c2 = '_'
    · exact absurd ⟨hc, hc2⟩ h
    · simp [hc, hc2]
  · simp [hc]

theorem not_both_us_of_bool (c c2 : Char) (h : (!(c = '_' && c2 = '_')) = true) :
    ¬(c = '_' ∧ c2 = '_') := by
  intro hh
  rw [hh.1, hh.2] at h
  simp at h

theorem noDUS_tail (c : Char) (l : List Char) (h : noDUS (c :: l) = true) :
    noDUS l = true := by
  cases l with
  | nil => rfl
  | cons c2 t =>
    unfold noDUS at h
    rw [Bool.and_eq_true] at h
    exact h.2

theorem noDUS_append_right (a b : List Char) (h : noDUS (a ++ b) = true) :
    noDUS b = true := by
  induction a with
  | nil => simpa using h
  | cons c t ih =>
    exact ih (noDUS_tail c (t ++ b) (by simpa using h))

theorem noDUS_append_left (a b : List Char) (h : noDUS (a ++ b) = true) :
    noDUS a = true := by
  induction a with
  | nil => rfl
  | cons c t ih =>
    cases t with
    | nil => rfl
    | cons c2 t2 =>
      simp only [List.cons_append] at h
      unfold noDUS at h ⊢
      rw [Bool.and_eq_true] at h ⊢
      refine ⟨h.1, ?_⟩
      have := ih (by simpa using h.2)
      exact this

theorem collapseUS_head (c : Char) (l : List Char) :
    ∃ t, collapseUS (c :: l) = c :: t := by
  induction l generalizing c with
  | nil => exact ⟨[], rfl⟩
  | cons c2 t ih =>
    unfold collapseUS
    by_cases h : c = '_' ∧ c2 = '_'
    · rw [if_pos h]
      obtain ⟨t2, ht⟩ := ih c2
      exact ⟨t2, by rw [ht, h.1, h.2]⟩
    · rw [if_neg h]
      exact ⟨collapseUS (c2 :: t), rfl⟩

theorem noDUS_collapseUS (l : List Char) : noDUS (collapseUS l) = true := by
  induction l with
  | nil => rfl
  | cons c t ih =>
    cases t with
    | nil => rfl
    | cons c2 t2 =>
      unfold collapseUS
      by_cases h : c = '_' ∧ c2 = '_'
      · rw [if_pos h]; exact ih
      · rw [if_neg h]
        obtain ⟨t3, ht⟩ := collapseUS_head c2 t2
        rw [ht]
        unfold noDUS
        rw [Bool.and_eq_true]
        constructor
        · exact bool_of_not_both_us c c2 h
        · rw [← ht]; exact ih

theorem collapseUS_of_noDUS (l : List Char) (h : noDUS l = true) :
    collapseUS l = l := by
  induction l with
  | nil => rfl
  | cons c t ih =>
    cases t with
    | nil => rfl
    | cons c2 t2 =>
      unfold collapseUS
      unfold noDUS at h
      rw [Bool.and_eq_true] at h
      rw [if_neg (not_both_us_of_bool c c2 h.1), ih h.2]

theorem collapseUS_subset (l : List Char) : ∀ c ∈ collapseUS l, c ∈ l := by
  induction l with
  | nil => intro c hc; simp [collapseUS] at hc
  | cons a t ih =>
    cases t with
    | nil => intro c hc; simp [collapseUS] at hc; simp [hc]
    | cons c2 t2 =>
      intro c hc
      unfold collapseUS at hc
      by_cases h : a = '_' ∧ c2 = '_'
      · rw [if_pos h] at hc
        exact List.mem_cons_of_mem a (ih c hc)
      · rw [if_neg h] at hc
        rcases List.mem_cons.mp hc with h1 | h2
        · rw [h1]; exact List.mem_cons_self a (c2 :: t2)
        · exact List.mem_cons_of_mem a (ih c h2)

theorem allowed_not_space (c : Char) (h : allowedChar c = true) :
    isPySpace c = false := by
  have k1 : c ≠ ' ' := by intro he; rw [he] at h; exact absurd h (by decide)
  have k2 : c ≠ '\t' := by intro he; rw [he] at h; exact absurd h (by decide)
  have k3 : c ≠ '\n' := by intro he; rw [he] at h; exact absurd h (by decide)
  have k4 : c ≠ '\r' := by intro he; rw [he] at h; exact absurd h (by decide)
  have k5 : c ≠ '\x0b' := by intro he; rw [he] at h; exact absurd h (by decide)
  have k6 : c ≠ '\x0c' := by intro he; rw [he] at h; exact absurd h (by decide)
  simp [isPySpace, k1, k2, k3, k4, k5, k6]

theorem sanitizeCore_allowed (l : List Char) :
    ∀ c ∈ sanitizeCore l, allowedChar c = true := by
  intro c hc
  unfold sanitizeCore at hc
  have h1 := stripChars_subset isSepChar _ c hc
  have h2 := collapseUS_subset _ c h1
  exact subRuns_allowed _ c h2

theorem sanitizeCore_noDUS (l : List Char) : noDUS (sanitizeCore l) = true := by
  unfold sanitizeCore
  obtain ⟨t1, t2, hdec⟩ :=
    stripChars_decomp isSepChar (collapseUS (subRuns (stripChars isPySpace l)))
  have hm := noDUS_collapseUS (subRuns (stripChars isPySpace l))
  rw [hdec] at hm
  exact noDUS_append_left _ t2 (noDUS_append_right t1 _ hm)

theorem sanitizeCore_head_not_sep (l : List Char) (c : Char) (rest : List Char)
    (h : sanitizeCore l = c :: rest) : isSepChar c = false := by
  unfold sanitizeCore at h
  exact stripChars_head_false isSepChar _ c rest h

theorem sanitizeCore_last_not_sep (l : List Char) (c : Char) (rest : List Char)
    (h : (sanitizeCore l).reverse = c :: rest) : isSepChar c = false := by
  unfold sanitizeCore at h
  exact stripChars_last_false isSepChar _ c rest h

theorem sanitizeCore_fixed (l : List Char)
    (hall : ∀ c ∈ l, allowedChar c = true)
    (hnd : noDUS l = true)
    (hhead : ∀ c rest, l = c :: rest → isSepChar c = false)
    (hlast : ∀ c rest, l.reverse = c :: rest → isSepChar c = false) :
    sanitizeCore l = l := by
  unfold sanitizeCore
  rw [stripChars_eq_self_of_all isPySpace l
        (fun c hc => allowed_not_space c (hall c hc))]
  rw [subRuns_of_allowed l hall]
  rw [collapseUS_of_noDUS l hnd]
  unfold stripChars
  have hd : l.dropWhile isSepChar = l := by
    cases hl : l with
    | nil => rfl
    | cons a t =>
      rw [List.dropWhile_cons, if_neg (by simp [hhead a t hl])]
  rw [hd]
  have hr : l.reverse.dropWhile isSepChar = l.reverse := by
    cases hl : l.reverse with
    | nil => rfl
    | cons a t =>
      rw [List.dropWhile_cons, if_neg (by simp [hlast a t hl])]
  rw [hr, List.reverse_reverse]

/-! ## Claim theorems: sanitization (C8, C10) -/

/-- C8: for every input string, `sanitize_for_path` returns a string whose
characters all lie in `[A-Za-z0-9._-]` — in particular no `/` or `\`
path separator and hence no traversal sequence — the result is never
empty, never `.` and never `..`, and whenever the sanitized core is empty
the fixed placeholder `"item"` is returned. -/
theorem sanitize_for_path_safe (s : String) :
    (∀ ch ∈ (sanitize_for_path s).data, allowedChar ch = true)
    ∧ '/' ∉ (sanitize_for_path s).data
    ∧ '\\' ∉ (sanitize_for_path s).data
    ∧ sanitize_for_path s ≠ ""
    ∧ sanitize_for_path s ≠ "."
    ∧ sanitize_for_path s ≠ ".."
    ∧ (sanitizeCore s.data = [] → sanitize_for_path s = "item") := by
  have hall0 := sanitizeCore_allowed s.data
  cases hx : sanitizeCore s.data with
  | nil =>
    have hs : sanitize_for_path s = "item" := by
      unfold sanitize_for_path
      rw [hx]
      rfl
    rw [hs]
    exact ⟨by decide, by decide, by decide, by decide, by decide, by decide,
           fun _ => rfl⟩
  | cons c rest =>
    have hhead := sanitizeCore_head_not_sep s.data c rest hx
    have hs : sanitize_for_path s = String.mk (c :: rest) := by
      unfold sanitize_for_path
      rw [hx]
      rfl
    rw [hs]
    rw [hx] at hall0
    refine ⟨hall0, ?_, ?_, ?_, ?_, ?_, ?_⟩
    · intro hmem; exact absurd (hall0 '/' hmem) (by decide)
    · intro hmem; exact absurd (hall0 '\\' hmem) (by decide)
    · intro heq
      have hd : c :: rest = ([] : List Char) := congrArg String.data heq
      simp at hd
    · intro heq
      have hd : c :: rest = ['.'] := congrArg String.data heq
      injection hd with hd1 _
      rw [hd1] at hhead
      exact absurd hhead (by decide)
    · intro heq
      have hd : c :: rest = ['.', '.'] := congrArg String.data heq
      injection hd with hd1 _
      rw [hd1] at hhead
      exact absurd hhead (by decide)
    · intro hnil
      simp at hnil

/-- C10: `sanitize_for_path` is idempotent — sanitizing an
already-sanitized name changes nothing. -/
theorem sanitize_for_path_idem (s : String) :
    sanitize_for_path (sanitize_for_path s) = sanitize_for_path s := by
  cases hx : sanitizeCore s.data with
  | nil =>
    have hs : sanitize_for_path s = "item" := by
      unfold sanitize_for_path
      rw [hx]
      rfl
    rw [hs]
    decide
  | cons c rest =>
    have hs : sanitize_for_path s = String.mk (c :: rest) := by
      unfold sanitize_for_path
      rw [hx]
      rfl
    rw [hs]
    have hall : ∀ ch ∈ (c :: rest : List Char), allowedChar ch = true := by
      rw [← hx]; exact sanitizeCore_allowed s.data
    have hnd : noDUS (c :: rest) = true := by
      rw [← hx]; exact sanitizeCore_noDUS s.data
    have hhead : ∀ ch r2, (c :: rest : List Char) = ch :: r2 → isSepChar ch = false := by
      intro ch r2 h2
      exact sanitizeCore_head_not_sep s.data ch r2 (by rw [hx]; exact h2)
    have hlast : ∀ ch r2, (c :: rest : List Char).reverse = ch :: r2 →
        isSepChar ch = false := by
      intro ch r2 h2
      exact sanitizeCore_last_not_sep s.data ch r2 (by rw [hx]; exact h2)
    have hfix : sanitizeCore (c :: rest) = c :: rest :=
      sanitizeCore_fixed (c :: rest) hall hnd hhead hlast
    unfold sanitize_for_path
    rw [show (String.mk (c :: rest)).data = c :: rest from rfl, hfix]
    rfl

/-! ## Claim theorem: marker scan resilience (C6) -/

/-- C6: `existing_commit_hashes_for_repo` is total (it is a plain Lean
function, so no input raises), and a hash is collected exactly when some
readable marker's stripped content is a well-formed 40-hex commit
identity; moreover deleting an unreadable marker from the scan never
changes the result — unreadable, truncated or non-hex markers contribute
nothing. -/
theorem existing_commit_hashes_sound :
    (∀ (be : Bool) (ms : List MarkerRead) (h : String),
      h ∈ existing_commit_hashes_for_repo be ms ↔
        (be = true ∧ ∃ t, MarkerRead.content t ∈ ms ∧ isHex40 (pyStrip t) = true ∧
          h = pyLower (pyStrip t)))
    ∧ (∀ (be : Bool) (ms1 ms2 : List MarkerRead),
        existing_commit_hashes_for_repo be (ms1 ++ MarkerRead.unreadable :: ms2)
          = existing_commit_hashes_for_repo be (ms1 ++ ms2)) := by
  constructor
  · intro be ms h
    cases be with
    | false => simp [existing_commit_hashes_for_repo]
    | true =>
      unfold existing_commit_hashes_for_repo
      rw [if_pos rfl, List.mem_filterMap]
      constructor
      · rintro ⟨m, hm, hf⟩
        cases m with
        | unreadable => simp at hf
        | content t =>
          simp only at hf
          by_cases hx : isHex40 (pyStrip t) = true
          · rw [if_pos hx] at hf
            injection hf with hf1
            exact ⟨rfl, t, hm, hx, hf1.symm⟩
          · rw [if_neg hx] at hf
            exact absurd hf (by simp)
      · rintro ⟨-, t, hm, hx, rfl⟩
        exact ⟨MarkerRead.content t, hm, by simp only; rw [if_pos hx]⟩
  · intro be ms1 ms2
    cases be with
    | false => rfl
    | true =>
      unfold existing_commit_hashes_for_repo
      rw [if_pos rfl, if_pos rfl, List.filterMap_append, List.filterMap_append,
          List.filterMap_cons]

/-! ## Claim theorem: shallow fetch with single fallback (C5) -/

theorem checkout_msg_ne_fetch_msg (d e : String) :
    ("git checkout failed: " ++ d) ≠ ("git fetch ref failed: " ++ e) := by
  intro h
  have h2 := congrArg String.data h
  simp [String.data_append] at h2

theorem checkoutStage_not_fetch_err (env : CloneEnv) (d : String) :
    checkoutStage env ≠ .error (.runtimeError ("git fetch ref failed: " ++ d)) := by
  unfold checkoutStage
  cases env.checkoutRes with
  | timedOut cmd secs => simp [runGitStep]
  | done r =>
    simp only [runGitStep]
    by_cases h : r.returncode = 0
    · rw [if_neg (by simp [h])]
      simp
    · rw [if_pos (by simpa using h)]
      intro hcontra
      simp only [Except.error.injEq, PyExn.runtimeError.injEq] at hcontra
      exact checkout_msg_ne_fetch_msg (pyStrip r.stderr) d hcontra

/-- C5: with the repository initialization and remote registration
succeeding and both fetch invocations running to completion, the shallow
fetch is attempted first; no fallback happens when it succeeds; exactly
one full-fetch fallback happens when it fails; the raised error carries
the git diagnostic of the failed fetch, and a fetch-failure error is
raised if and only if both attempts fail. -/
theorem clone_fetch_fallback (env : CloneEnv) (r0 r1 rs rf : GitRun)
    (h0 : env.initRes = .done r0) (h0c : r0.returncode = 0)
    (h1 : env.remoteAddRes = .done r1) (h1c : r1.returncode = 0)
    (hs : env.shallowFetchRes = .done rs) (hf : env.fullFetchRes = .done rf) :
    ((clone_at_ref_shallow env).1.head? = some FetchKind.shallow)
    ∧ (rs.returncode = 0 → (clone_at_ref_shallow env).1 = [FetchKind.shallow])
    ∧ (rs.returncode ≠ 0 →
        (clone_at_ref_shallow env).1 = [FetchKind.shallow, FetchKind.full])
    ∧ (rs.returncode ≠ 0 ∧ rf.returncode ≠ 0 →
        (clone_at_ref_shallow env).2 =
          .error (.runtimeError ("git fetch ref failed: " ++ pyStrip rf.stderr)))
    ∧ ((∃ d : String, (clone_at_ref_shallow env).2 =
          .error (.runtimeError ("git fetch ref failed: " ++ d)))
        ↔ (rs.returncode ≠ 0 ∧ rf.returncode ≠ 0)) := by
  have hclone : clone_at_ref_shallow env =
      (if rs.returncode ≠ 0 then
        (if rf.returncode ≠ 0 then
          ([FetchKind.shallow, FetchKind.full],
            Except.error (PyExn.runtimeError ("git fetch ref failed: " ++ pyStrip rf.stderr)))
         else ([FetchKind.shallow, FetchKind.full], checkoutStage env))
       else ([FetchKind.shallow], checkoutStage env)) := by
    unfold clone_at_ref_shallow
    rw [h0, h1, hs, hf]
    simp only [runGitStep]
    rw [if_neg (by simp [h0c]), if_neg (by simp [h1c])]
  by_cases hrs : rs.returncode = 0
  · rw [hclone, if_neg (by simp [hrs])]
    refine ⟨rfl, fun _ => rfl, fun hc => absurd hrs hc, fun hc => absurd hrs hc.1, ?_⟩
    constructor
    · rintro ⟨d, hd⟩
      exact absurd hd (checkoutStage_not_fetch_err env d)
    · rintro ⟨hc, -⟩
      exact absurd hrs hc
  · rw [hclone, if_pos hrs]
    by_cases hrf : rf.returncode = 0
    · rw [if_neg (by simp [hrf])]
      refine ⟨rfl, fun hc => absurd hc hrs, fun _ => rfl, fun hc => absurd hrf hc.2, ?_⟩
      constructor
      · rintro ⟨d, hd⟩
        exact absurd hd (checkoutStage_not_fetch_err env d)
      · rintro ⟨-, hc⟩
        exact absurd hrf hc
    · rw [if_pos hrf]
      refine ⟨rfl, fun hc => absurd hc hrs, fun _ => rfl, fun _ => rfl, ?_⟩
      exact ⟨fun _ => ⟨hrs, hrf⟩, fun _ => ⟨pyStrip rf.stderr, rfl⟩⟩

/-! ## Claim theorems: `process_repo` (C1, C2, C4, C7, C9) -/

/-- C4: a descriptor with any empty required field is rejected with the
missing-fields error, and `process_repo` performs no side effect at all:
no base-directory creation, no temporary directory, no archive write, no
fetch. -/
theorem process_repo_rejects_missing_fields (spec : RepoSpec) (w : World)
    (h : spec.giturl = "" ∨ spec.git_ref = "" ∨ spec.name = "" ∨ spec.store_path = "") :
    process_repo spec w =
      { ok := false, err := some missingFieldsMsg, caught := none, skipped := false,
        basePath := none, createdBase := false, tempCreated := false,
        tempRemoved := false, archiveWrites := [], networkUsed := false } := by
  unfold process_repo
  rw [if_pos h]

/-- Witness: the descriptor with an empty name is rejected without side
effects. -/
theorem process_repo_rejects_missing_fields_witness :
    process_repo noNameSpec freshWorld =
      { ok := false, err := some missingFieldsMsg, caught := none, skipped := false,
        basePath := none, createdBase := false, tempCreated := false,
        tempRemoved := false, archiveWrites := [], networkUsed := false } :=
  process_repo_rejects_missing_fields noNameSpec freshWorld
    (Or.inr (Or.inr (Or.inl rfl)))

/-- C2: for a valid descriptor whose resolved commit is already captured
(either by a valid marker under the base directory or by an existing
directory of that name), `process_repo` returns the successful skip
outcome with no error, writes nothing to the archive, does not create the
base directory (it already existed), and only creates and removes the
temporary checkout directory. -/
theorem process_repo_skip_frame (spec : RepoSpec) (w : World) (hashOut : String)
    (hg : spec.giturl ≠ "") (hr : spec.git_ref ≠ "") (hn : spec.name ≠ "")
    (hsp : spec.store_path ≠ "")
    (hclone : (clone_at_ref_shallow w.clone).2 = .ok ())
    (hrev : git_rev_parse_head w.revParseRes = .ok hashOut)
    (hcap : pyLower hashOut ∈ existing_commit_hashes_for_repo true w.markers
            ∨ pyLower hashOut ∈ w.dirs)
    (hbase : w.baseExisted = true) (hrm : w.rmtreeOk = true) :
    (process_repo spec w).ok = true
    ∧ (process_repo spec w).err = none
    ∧ (process_repo spec w).skipped = true
    ∧ (process_repo spec w).archiveWrites = []
    ∧ (process_repo spec w).createdBase = false
    ∧ (process_repo spec w).tempCreated = true
    ∧ (process_repo spec w).tempRemoved = true := by
  unfold process_repo
  rw [if_neg (by simp [hg, hr, hn, hsp])]
  rw [hclone, hrev]
  by_cases hmem : pyLower hashOut ∈ existing_commit_hashes_for_repo true w.markers
  · simp [hmem, hbase, hrm]
  · have hdir : pyLower hashOut ∈ w.dirs := hcap.resolve_left hmem
    simp [hmem, hdir, hbase, hrm]

/-- Witness: skipping a commit that already has a valid marker, with no
archive writes. -/
theorem process_repo_skip_frame_witness :
    (process_repo demoSpec capturedWorld).ok = true
    ∧ (process_repo demoSpec capturedWorld).err = none
    ∧ (process_repo demoSpec capturedWorld).skipped = true
    ∧ (process_repo demoSpec capturedWorld).archiveWrites = []
    ∧ (process_repo demoSpec capturedWorld).createdBase = false
    ∧ (process_repo demoSpec capturedWorld).tempCreated = true
    ∧ (process_repo demoSpec capturedWorld).tempRemoved = true :=
  process_repo_skip_frame demoSpec capturedWorld hash40
    (by decide) (by decide) (by decide) (by decide) (by decide) (by decide)
    (Or.inl (by decide)) (by decide) (by decide)

/-- C7: once the export completed, `process_repo` returns success even
when the marker write fails; `write_marker_with_hash` is a total function
(it swallows the write exception), and the failed marker write leaves the
exported files in place — the archive writes are exactly the export plus
the attempted marker, with nothing removed. -/
theorem process_repo_marker_best_effort (spec : RepoSpec) (w : World)
    (hashOut : String) (files : List String)
    (hg : spec.giturl ≠ "") (hr : spec.git_ref ≠ "") (hn : spec.name ≠ "")
    (hsp : spec.store_path ≠ "")
    (hclone : (clone_at_ref_shallow w.clone).2 = .ok ())
    (hrev : git_rev_parse_head w.revParseRes = .ok hashOut)
    (hnew1 : pyLower hashOut ∉ existing_commit_hashes_for_repo true w.markers)
    (hnew2 : pyLower hashOut ∉ w.dirs)
    (hexp : export_tracked_files w.lsFilesRes w.copyRes = .ok files)
    (hmk : w.markerWriteOk = false) :
    (process_repo spec w).ok = true
    ∧ (process_repo spec w).err = none
    ∧ (process_repo spec w).caught = none
    ∧ (process_repo spec w).archiveWrites =
        [ArchiveWrite.exportDir (pyLower hashOut) files,
         ArchiveWrite.markerFile (pyLower hashOut) false] := by
  unfold process_repo
  rw [if_neg (by simp [hg, hr, hn, hsp])]
  rw [hclone, hrev]
  simp [hnew1, hnew2, hexp, hmk, write_marker_with_hash]

/-- Witness: a fresh export whose marker write fails still succeeds and
keeps the exported file. -/
theorem process_repo_marker_best_effort_witness :
    (process_repo demoSpec noMarkerWorld).ok = true
    ∧ (process_repo demoSpec noMarkerWorld).err = none
    ∧ (process_repo demoSpec noMarkerWorld).caught = none
    ∧ (process_repo demoSpec noMarkerWorld).archiveWrites =
        [ArchiveWrite.exportDir (pyLower hash40) ["hello.txt"],
         ArchiveWrite.markerFile (pyLower hash40) false] :=
  process_repo_marker_best_effort demoSpec noMarkerWorld hash40 ["hello.txt"]
    (by decide) (by decide) (by decide) (by decide) (by decide) (by decide)
    (by decide) (by decide) (by decide) (by decide)

/-- C9: a shallow fetch that times out surfaces to the caller of
`process_repo` as a failure whose caught exception is the structurally
distinct `TimeoutExpired` — never a `RuntimeError` carrying remote
diagnostics — and whose message renders the timeout, so timeout failures
are distinguishable from remote-rejection failures; the temporary
directory cleanup is still attempted. -/
theorem process_repo_timeout_surfaced (spec : RepoSpec) (w : World)
    (r0 r1 : GitRun) (cmd : String) (secs : Nat)
    (hg : spec.giturl ≠ "") (hr : spec.git_ref ≠ "") (hn : spec.name ≠ "")
    (hsp : spec.store_path ≠ "")
    (h0 : w.clone.initRes = .done r0) (h0c : r0.returncode = 0)
    (h1 : w.clone.remoteAddRes = .done r1) (h1c : r1.returncode = 0)
    (hs : w.clone.shallowFetchRes = .timedOut cmd secs) :
    (process_repo spec w).ok = false
    ∧ (process_repo spec w).caught = some (PyExn.timeoutExpired cmd secs)
    ∧ (process_repo spec w).err =
        some ("Command " ++ cmd ++ " timed out after " ++ toString secs ++ " seconds")
    ∧ (∀ m : String, (process_repo spec w).caught ≠ some (PyExn.runtimeError m))
    ∧ (process_repo spec w).tempRemoved = w.rmtreeOk := by
  have hclone : clone_at_ref_shallow w.clone =
      ([FetchKind.shallow], .error (PyExn.timeoutExpired cmd secs)) := by
    unfold clone_at_ref_shallow
    rw [h0, h1, hs]
    simp only [runGitStep]
    rw [if_neg (by simp [h0c]), if_neg (by simp [h1c])]
  unfold process_repo
  rw [if_neg (by simp [hg, hr, hn, hsp])]
  rw [hclone]
  simp [pyStr]

/-- Witness: the timed-out fetch at a concrete world. -/
theorem process_repo_timeout_surfaced_witness :
    (process_repo demoSpec timeoutWorld).ok = false
    ∧ (process_repo demoSpec timeoutWorld).caught =
        some (PyExn.timeoutExpired "[git, fetch, --depth, 1, origin, main]" 600)
    ∧ (process_repo demoSpec timeoutWorld).err =
        some ("Command " ++ "[git, fetch, --depth, 1, origin, main]" ++
          " timed out after " ++ toString 600 ++ " seconds") := by
  have h := process_repo_timeout_surfaced demoSpec timeoutWorld okRun okRun
      "[git, fetch, --depth, 1, origin, main]" 600
      (by decide) (by decide) (by decide) (by decide) rfl rfl rfl rfl rfl
  exact ⟨h.1, h.2.1, h.2.2.1⟩

/-- C1: counter-evidence for the cleanup claim — on the
successful-export path (lines 285-294 of the source) `process_repo`
returns `(True, None)` without removing the temporary checkout directory
(there is no cleanup call and no `finally`), even though removal would
have succeeded; the temporary directory is removed only on the two skip
paths and in the `except` handler. -/
theorem process_repo_export_success_leaves_temp :
    (process_repo demoSpec freshWorld).ok = true
    ∧ (process_repo demoSpec freshWorld).err = none
    ∧ (process_repo demoSpec freshWorld).tempCreated = true
    ∧ (process_repo demoSpec freshWorld).tempRemoved = false
    ∧ freshWorld.rmtreeOk = true
    ∧ (process_repo demoSpec freshWorld).archiveWrites =
        [ArchiveWrite.exportDir hash40 ["hello.txt"],
         ArchiveWrite.markerFile hash40 true] := by
  decide

/-- Witness: both fetch attempts fail in a concrete environment; exactly
one fallback was issued and the raised error carries the full fetch's
diagnostic. -/
theorem clone_fetch_fallback_witness :
    (clone_at_ref_shallow fetchFailEnv).1.head? = some FetchKind.shallow
    ∧ (clone_at_ref_shallow fetchFailEnv).1 = [FetchKind.shallow, FetchKind.full]
    ∧ (clone_at_ref_shallow fetchFailEnv).2 =
        .error (.runtimeError ("git fetch ref failed: " ++ pyStrip "ref not found")) := by
  have h := clone_fetch_fallback fetchFailEnv okRun okRun
      { returncode := 1, stdout := "", stderr := "shallow not allowed" }
      { returncode := 1, stdout := "", stderr := "ref not found" }
      rfl rfl rfl rfl rfl rfl
  exact ⟨h.1, h.2.2.1 (by decide), h.2.2.2.1 ⟨by decide, by decide⟩⟩

/-- Witness for the sanitization guarantees on a traversal-shaped
input. -/
theorem sanitize_for_path_safe_witness :
    sanitize_for_path "../etc/passwd" ≠ ""
    ∧ sanitize_for_path "../etc/passwd" ≠ ".."
    ∧ '/' ∉ (sanitize_for_path "../etc/passwd").data := by
  have h := sanitize_for_path_safe "../etc/passwd"
  exact ⟨h.2.2.2.1, h.2.2.2.2.2.1, h.2.1⟩

/-! ## Claim theorem: run coordinator (C3) -/

theorem process_repo_skip_implies_ok (s : RepoSpec) (w : World) :
    ((!(process_repo s w).skipped) || (process_repo s w).ok) = true := by
  unfold process_repo
  split
  · rfl
  · split
    · rfl
    · split
      · rfl
      · dsimp only
        split
        · rfl
        · split
          · rfl
          · split
            · rfl
            · rfl

theorem mainStep_foldl (run : RepoSpec → Bool × Option String) :
    ∀ (l : List RepoSpec) (n : Nat) (fs : List (RepoSpec × String)),
      l.foldl (mainStep run) (n, fs)
        = (n + (l.filter (fun s => (run s).1)).length,
           fs ++ (l.filter (fun s => !(run s).1)).map
             (fun s => (s, pyOrStr (run s).2 "unknown error"))) := by
  intro l
  induction l with
  | nil => intro n fs; simp
  | cons a t ih =>
    intro n fs
    rw [List.foldl_cons]
    by_cases h : (run a).1 = true
    · rw [show mainStep run (n, fs) a = (n + 1, fs) by simp [mainStep, h]]
      rw [ih]
      simp only [List.filter_cons, h]
      simp [Nat.add_assoc, Nat.add_comm 1]
    · rw [show mainStep run (n, fs) a
          = (n, fs ++ [(a, pyOrStr (run a).2 "unknown error")]) by
        simp [mainStep, h]]
      rw [ih]
      simp only [List.filter_cons]
      rw [if_neg (by simpa using h), if_pos (by simpa using h)]
      simp

theorem filter_length_split (p : RepoSpec → Bool) (l : List RepoSpec) :
    (l.filter p).length + (l.filter (fun a => !(p a))).length = l.length := by
  induction l with
  | nil => rfl
  | cons a t ih =>
    by_cases h : p a = true <;>
      simp only [List.filter_cons, h, Bool.not_true, Bool.not_false, if_pos, if_neg] <;>
      simp [h, ← ih] <;> omega

theorem exit_code_iff (fs : List (RepoSpec × String)) :
    (if fs.isEmpty then 0 else 1) = 0 ↔ fs = [] := by
  cases fs with
  | nil => simp
  | cons a t => simp

/-- C3: the descriptor loop of `main` processes every descriptor — the
success count plus the failure count always equals the input length, so
no failure stops the loop — every skip counts as a success (a skipped
outcome always reports `ok`), the failure list records exactly the failed
descriptors with their error text, the exit code is 0 exactly when no
descriptor failed, and the empty sequence yields exit code 0 with the
distinct empty-input warning. -/
theorem main_specs_aggregation (specs : List RepoSpec) (ws : RepoSpec → World) :
    (main_specs specs (procRun ws)).successes
        = (specs.filter (fun s => (process_repo s (ws s)).ok)).length
    ∧ (main_specs specs (procRun ws)).failures
        = (specs.filter (fun s => !(process_repo s (ws s)).ok)).map
            (fun s => (s, pyOrStr (process_repo s (ws s)).err "unknown error"))
    ∧ (main_specs specs (procRun ws)).successes
        + (main_specs specs (procRun ws)).failures.length = specs.length
    ∧ ((main_specs specs (procRun ws)).exitCode = 0
        ↔ (main_specs specs (procRun ws)).failures = [])
    ∧ (main_specs specs (procRun ws)).warnedEmpty = specs.isEmpty
    ∧ specs.filter (fun s => (process_repo s (ws s)).skipped
        && !(process_repo s (ws s)).ok) = [] := by
  have hskip : specs.filter (fun s => (process_repo s (ws s)).skipped
      && !(process_repo s (ws s)).ok) = [] := by
    rw [List.filter_eq_nil_iff]
    intro a _
    intro hcon
    have h := process_repo_skip_implies_ok a (ws a)
    rw [Bool.and_eq_true] at hcon
    rw [hcon.1] at h
    simp only [Bool.not_true, Bool.false_or] at h
    rw [h] at hcon
    simp at hcon
  cases hsp : specs with
  | nil => simp [main_specs]
  | cons a t =>
    have hne : (a :: t).isEmpty = false := rfl
    unfold main_specs
    rw [hne]
    simp only [Bool.false_eq_true, if_false]
    rw [mainStep_foldl (procRun ws) (a :: t) 0 []]
    simp only [List.nil_append, Nat.zero_add]
    have hf1 : (fun s => (procRun ws s).1) = (fun s => (process_repo s (ws s)).ok) := by
      funext s; rfl
    have hf2 : (fun s => !(procRun ws s).1) = (fun s => !(process_repo s (ws s)).ok) := by
      funext s; rfl
    have hf3 : (fun s : RepoSpec => (s, pyOrStr (procRun ws s).2 "unknown error"))
        = (fun s => (s, pyOrStr (process_repo s (ws s)).err "unknown error")) := by
      funext s; rfl
    refine ⟨?A, ?B, ?C, ?D, ?E, ?F⟩
    case A => rw [hf1]
    case B => rw [hf2, hf3]
    case C =>
      rw [List.length_map]
      exact filter_length_split (fun s => (procRun ws s).1) (a :: t)
    case D => exact exit_code_iff _
    case E => trivial
    case F => rw [← hsp]; exact hskip

/-- Witness: the coordinator at a concrete two-descriptor sequence. -/
theorem main_specs_aggregation_witness :
    (main_specs [demoSpec, noNameSpec] (procRun (fun _ => freshWorld))).successes
      = ([demoSpec, noNameSpec].filter
          (fun s => (process_repo s ((fun _ => freshWorld) s)).ok)).length
    ∧ ((main_specs [demoSpec, noNameSpec] (procRun (fun _ => freshWorld))).exitCode = 0
        ↔ (main_specs [demoSpec, noNameSpec] (procRun (fun _ => freshWorld))).failures
            = []) := by
  have h := main_specs_aggregation [demoSpec, noNameSpec] (fun _ => freshWorld)
  exact ⟨h.1, h.2.2.2.1⟩
